import Mathlib

/-
Shallow embedding of the fabric-history `CanvasWithHistory` class
(src/canvas.ts, final revision: the class that binds selection events and
fires `history:append` / `history:undo` / `history:redo` / `history:cleared`).

Modelling conventions:
- The canvas document is a list of objects (`Doc`); objects are opaque ids.
- `JSON.stringify(this.toDatalessJSON())` is an injective, deterministic
  codec (external collaborator).  We embed its output as `Token`:
  `Token.good d` is the serialization of document `d`; `Token.bad n` stands
  for a malformed / foreign string that `JSON.parse`-plus-`loadFromJSON`
  rejects.  Serialized tokens are never the empty string, so the JS
  falsiness checks `if (!poppedState)` / `if (!previousState)` reduce to
  the `undefined` (empty stack) case, embedded with `Option` / `match`.
- The JS undo/redo arrays push/pop at the END; here the stack TOP is the
  HEAD of the list (push = cons, pop = uncons), which preserves the
  push/pop/peek discipline exactly.
- fabric's `on` / `off` take handler references; each `.bind(this)` call in
  the source creates a fresh function identity.  A `Handler` is a method
  tag plus the serial number of the `.bind` call that created it, and the
  state carries `bindCounter`, the number of `.bind` calls made so far.
  `off` removes a subscription only on an exact (event, handler) match,
  exactly as fabric's identity-based listener removal does.
- Event delivery is fuel-bounded (`exec fuel act s`): the source's
  re-entrant event cascades (e.g. `this.remove` inside
  `_handleObjectRemoved` re-firing `object:removed`) have bounded depth
  because the `_historyProcessing` guard stops recursion, so any
  sufficiently large fuel computes the real behaviour; the theorems either
  hold for every fuel or instantiate a generous one.
- `notifications` logs every fabric event fired at the canvas;
  `fired` logs the `history:*` events the class emits;
  `errors` counts `console.error` calls.
-/

/-- Canvas objects are opaque ids. -/
abbrev Obj := Nat

/-- A canvas document: the ordered list of objects on the canvas. -/
abbrev Doc := List Obj

/-- A serialized snapshot string.  `good d` is `JSON.stringify(toDatalessJSON())`
of document `d`; `bad n` is a malformed string that fails to parse. -/
inductive Token where
  | good : Doc → Token
  | bad : Nat → Token
deriving DecidableEq, Repr

/-- The codec's serialization direction (`JSON.stringify ∘ toDatalessJSON`). -/
def encode (d : Doc) : Token := Token.good d

/-- The codec's parse direction (`JSON.parse` + `loadFromJSON` enlivening);
`none` models a thrown parse error. -/
def decode : Token → Option Doc
  | Token.good d => some d
  | Token.bad _ => none

/-- The fabric canvas events the class interacts with. -/
inductive EventName where
  | pathCreated | erasingEnd | objectAdded | objectRemoved | objectMoving
  | objectModified | selectionCreated | selectionUpdated | selectionCleared
  | canvasCleared
deriving DecidableEq, Repr

/-- The bound methods of `CanvasWithHistory` that can be subscribed. -/
inductive Method where
  | saveAction        -- _historySaveAction
  | hObjectRemoved    -- _handleObjectRemoved
  | hObjectMoving     -- _handleObjectMoving
  | hObjectModified   -- _handleObjectModified
  | hSelectionCreated -- _handleSelectionCreated
  | hSelectionUpdated -- _handleSelectionUpdated
  | hSelectionCleared -- _handleSelectionCleared
deriving DecidableEq, Repr

/-- A concrete listener: which method it wraps and the serial number of the
`.bind(this)` call that created it (fresh identity per call). -/
structure Handler where
  method : Method
  serial : Nat
deriving DecidableEq, Repr

/-- The event payloads the handlers inspect. -/
inductive Payload where
  | noData
  | target (o : Obj)
  | selected (objs : List Obj)
deriving DecidableEq, Repr

/-- The `history:*` events the class fires. -/
inductive HEvent where
  | append (json : Token) (initial : Bool)
  | undone (lastUndoAction : Token)
  | redone (lastRedoAction : Token)
  | cleared
deriving DecidableEq, Repr

/-- The full state of a `CanvasWithHistory` instance together with the
observer-visible logs. -/
structure HState where
  doc : Doc
  activeObjects : List Obj
  historyUndo : List Token
  historyRedo : List Token
  selectedObjects : List Obj
  isMultiSelection : Bool
  historyIsMoving : Bool
  historyProcessing : Bool
  historyCurrentState : Token
  subscribed : List (EventName × Handler)
  bindCounter : Nat
  notifications : List (EventName × Payload)
  fired : List HEvent
  errors : Nat
deriving DecidableEq, Repr

/-- `_historyCurrent()`: serialize the current canvas. -/
def historyCurrent (s : HState) : Token := encode s.doc

/-- `_historySaveAction()`: the capture pass (canvas.ts lines 369-378). -/
def historySaveAction (s : HState) : HState :=
  if s.historyProcessing || s.historyIsMoving then s
  else
    let latestJSON := historyCurrent s
    if s.historyCurrentState = latestJSON then s
    else { s with historyUndo := latestJSON :: s.historyUndo,
                  historyCurrentState := latestJSON,
                  historyRedo := [],
                  fired := s.fired ++ [HEvent.append latestJSON false] }

/-- `_historySaveInitialState()` (canvas.ts lines 305-309). -/
def historySaveInitialState (s : HState) : HState :=
  let initialState := historyCurrent s
  { s with historyUndo := [initialState], historyCurrentState := initialState }

/-- The listeners currently subscribed to an event, in subscription order. -/
def handlersFor (s : HState) (ev : EventName) : List Handler :=
  (s.subscribed.filter (fun p => decide (p.1 = ev))).map (fun p => p.2)

/-- An event-system step: delivering a fabric event to the subscribed
listeners, or running one bound method on a payload. -/
inductive Act where
  | deliver (ev : EventName) (pl : Payload)
  | run (m : Method) (pl : Payload)

/-- Fuel-bounded execution of event delivery and of the class's handlers.
`deliver` logs the notification and runs each subscribed listener in order;
`run` is the body of the corresponding private method of the class.
The `hObjectRemoved` case is `_handleObjectRemoved` (canvas.ts lines
316-337): its compound branch removes the whole pending selection via
`this.remove(...)` (which re-fires `object:removed` per actually-removed
object) and `this.discardActiveObject()` (which fires `selection:cleared`
when there was an active selection). -/
def exec : Nat → Act → HState → HState
  | 0, _, s => s
  | n+1, Act.deliver ev pl, s =>
      let s0 := { s with notifications := s.notifications ++ [(ev, pl)] }
      (handlersFor s0 ev).foldl (fun st h => exec n (Act.run h.method pl) st) s0
  | n+1, Act.run m pl, s =>
      match m, pl with
      | Method.saveAction, _ => historySaveAction s
      | Method.hObjectMoving, _ => { s with historyIsMoving := true }
      | Method.hObjectModified, _ =>
          historySaveAction { s with historyIsMoving := false }
      | Method.hSelectionCreated, Payload.selected objs =>
          if objs.length > 1 then
            { s with selectedObjects := objs, isMultiSelection := true }
          else s
      | Method.hSelectionCreated, _ => s
      | Method.hSelectionUpdated, _ =>
          { s with selectedObjects := s.activeObjects,
                   isMultiSelection := decide (s.activeObjects.length > 1) }
      | Method.hSelectionCleared, _ =>
          { s with selectedObjects := [], isMultiSelection := false }
      | Method.hObjectRemoved, Payload.target t =>
          if !s.historyProcessing && s.isMultiSelection
              && s.selectedObjects.contains t then
            let s1 := { s with historyProcessing := true }
            let objectsToRemove := s1.selectedObjects
            let s2 := { s1 with selectedObjects := [] }
            let s3 := objectsToRemove.foldl (fun st o =>
                if o ∈ st.doc then
                  exec n (Act.deliver EventName.objectRemoved (Payload.target o))
                    { st with doc := st.doc.erase o }
                else st) s2
            let s4 := if s3.activeObjects.isEmpty then s3
                      else exec n (Act.deliver EventName.selectionCleared Payload.noData)
                             { s3 with activeObjects := [] }
            let s5 := { s4 with historyProcessing := false }
            historySaveAction s5
          else historySaveAction s
      | Method.hObjectRemoved, _ => historySaveAction s

/-- fabric's `clear()`: empties the object list and fires `canvas:cleared`
(the final class has no `canvas:cleared` subscription). -/
def canvasClearRaw (fuel : Nat) (s : HState) : HState :=
  exec fuel (Act.deliver EventName.canvasCleared Payload.noData) { s with doc := [] }

/-- fabric's `discardActiveObject()`: drops the active selection, firing
`selection:cleared` when one existed. -/
def discardActiveObject (fuel : Nat) (s : HState) : HState :=
  if s.activeObjects.isEmpty then s
  else exec fuel (Act.deliver EventName.selectionCleared Payload.noData)
         { s with activeObjects := [] }

/-- fabric's `loadFromJSON` on an already-cleared canvas: re-adds each
enlivened object, firing `object:added` per object. -/
def loadFromJSON (fuel : Nat) (d : Doc) (s : HState) : HState :=
  d.foldl (fun st o =>
    exec fuel (Act.deliver EventName.objectAdded (Payload.target o))
      { st with doc := st.doc ++ [o] }) s

/-- `_loadFromHistory(historyState)` (canvas.ts lines 437-448): the try
block clears the canvas and discards the selection BEFORE parsing, the
catch logs the error, the finally clears `_historyProcessing`. -/
def loadFromHistory (fuel : Nat) (historyState : Token) (s : HState) : HState :=
  let s1 := canvasClearRaw fuel s
  let s2 := discardActiveObject fuel s1
  match decode historyState with
  | none => { s2 with errors := s2.errors + 1, historyProcessing := false }
  | some d =>
      let s3 := loadFromJSON fuel d s2
      { s3 with historyProcessing := false }

/-- `undo()` (canvas.ts lines 383-398). -/
def undo (fuel : Nat) (s : HState) : HState :=
  if s.historyUndo.length ≤ 1 then s
  else
    let s1 := { s with historyProcessing := true }
    match s1.historyUndo with
    | [] => s1
    | poppedState :: rest =>
        let s2 := { s1 with historyUndo := rest,
                            historyRedo := poppedState :: s1.historyRedo }
        match rest.head? with
        | none => s2
        | some previousState =>
            let s3 := { s2 with historyCurrentState := previousState }
            let s4 := loadFromHistory fuel previousState s3
            { s4 with fired := s4.fired ++ [HEvent.undone poppedState] }

/-- `redo()` (canvas.ts lines 410-423). -/
def redo (fuel : Nat) (s : HState) : HState :=
  if s.historyRedo.length = 0 then s
  else
    let s1 := { s with historyProcessing := true }
    match s1.historyRedo with
    | [] => s1
    | poppedState :: rest =>
        let s2 := { s1 with historyRedo := rest,
                            historyUndo := poppedState :: s1.historyUndo,
                            historyCurrentState := poppedState }
        let s3 := loadFromHistory fuel poppedState s2
        { s3 with fired := s3.fired ++ [HEvent.redone poppedState] }

/-- `canUndo()` (canvas.ts lines 403-405). -/
def canUndo (s : HState) : Bool := decide (s.historyUndo.length > 1)

/-- `canRedo()` (canvas.ts lines 428-430). -/
def canRedo (s : HState) : Bool := decide (s.historyRedo.length > 0)

/-- `clearHistory()` (canvas.ts lines 453-457). -/
def clearHistory (s : HState) : HState :=
  let s1 := historySaveInitialState s
  let s2 := { s1 with historyRedo := [] }
  { s2 with fired := s2.fired ++ [HEvent.cleared] }

/-- `clearCanvas()` (canvas.ts lines 519-524). -/
def clearCanvas (fuel : Nat) (s : HState) : HState :=
  let s1 := { s with historyProcessing := true }
  let s2 := canvasClearRaw fuel s1
  let s3 := { s2 with historyProcessing := false }
  historySaveAction s3

/-- The nine (event, handler) pairs produced by one run of the
`this.on({...})` / `this.off({...})` object literal, with `.bind` serials
starting at `c` (canvas.ts lines 255-267 and 489-501 list the same map). -/
def bindList (c : Nat) : List (EventName × Handler) :=
  [(EventName.pathCreated, ⟨Method.saveAction, c⟩),
   (EventName.erasingEnd, ⟨Method.saveAction, c+1⟩),
   (EventName.objectAdded, ⟨Method.saveAction, c+2⟩),
   (EventName.objectRemoved, ⟨Method.hObjectRemoved, c+3⟩),
   (EventName.objectMoving, ⟨Method.hObjectMoving, c+4⟩),
   (EventName.objectModified, ⟨Method.hObjectModified, c+5⟩),
   (EventName.selectionCreated, ⟨Method.hSelectionCreated, c+6⟩),
   (EventName.selectionUpdated, ⟨Method.hSelectionUpdated, c+7⟩),
   (EventName.selectionCleared, ⟨Method.hSelectionCleared, c+8⟩)]

/-- `_bindEventListeners()`: subscribes nine freshly bound handlers. -/
def bindEventListeners (s : HState) : HState :=
  { s with subscribed := s.subscribed ++ bindList s.bindCounter,
           bindCounter := s.bindCounter + 9 }

/-- `_disposeEventListeners()`: calls `off` with NINE FRESHLY BOUND handlers
(new `.bind(this)` calls, hence new serials); `off` removes a listener only
on an exact identity match. -/
def disposeEventListeners (s : HState) : HState :=
  { s with subscribed := (bindList s.bindCounter).foldl
             (fun l p => l.erase p) s.subscribed,
           bindCounter := s.bindCounter + 9 }

/-- The constructor (canvas.ts lines 237-250): zero-initializes the fields,
serializes the starting document into `_historyCurrentState`, binds the
listeners, then saves the bootstrap entry. -/
def mkCanvas (d : Doc) : HState :=
  let s0 : HState :=
    { doc := d, activeObjects := [], historyUndo := [], historyRedo := [],
      selectedObjects := [], isMultiSelection := false,
      historyIsMoving := false, historyProcessing := false,
      historyCurrentState := encode d, subscribed := [], bindCounter := 0,
      notifications := [], fired := [], errors := 0 }
  historySaveInitialState (bindEventListeners s0)

/-- `dispose()` (canvas.ts lines 506-510): unsubscribe attempt, then
`clearHistory()`; `super.dispose()` tears down the rendering canvas, which
is outside this subsystem. -/
def dispose (s : HState) : HState :=
  clearHistory (disposeEventListeners s)

/-- External driver: fabric's `add(o)` appends the object and fires
`object:added`. -/
def canvasAdd (fuel : Nat) (o : Obj) (s : HState) : HState :=
  exec fuel (Act.deliver EventName.objectAdded (Payload.target o))
    { s with doc := s.doc ++ [o] }

/-- External driver: fabric's `remove(...objs)` removes each object still
present and fires `object:removed` for it. -/
def canvasRemove (fuel : Nat) (objs : List Obj) (s : HState) : HState :=
  objs.foldl (fun st o =>
    if o ∈ st.doc then
      exec fuel (Act.deliver EventName.objectRemoved (Payload.target o))
        { st with doc := st.doc.erase o }
    else st) s

/-- External driver: the user selects `objs`; fabric records them as the
active objects and fires `selection:created` with them. -/
def selectObjects (fuel : Nat) (objs : List Obj) (s : HState) : HState :=
  exec fuel (Act.deliver EventName.selectionCreated (Payload.selected objs))
    { s with activeObjects := objs }

/-- Recognizer for `history:append` log entries. -/
def isAppend : HEvent → Bool
  | HEvent.append _ _ => true
  | _ => false

/-- The `history:append` notifications emitted so far, in order. -/
def appendEvents (s : HState) : List HEvent := s.fired.filter isAppend

/-- The `object:removed` notifications fired at the canvas so far. -/
def removedNotes (s : HState) : List (EventName × Payload) :=
  s.notifications.filter (fun p => decide (p.1 = EventName.objectRemoved))

/-- The standard wiring: exactly the subscriptions installed by the
constructor (serials 0 through 8). -/
abbrev Wired (s : HState) : Prop := s.subscribed = bindList 0

/-- The marker-tracks-top invariant: the undo stack is non-empty and
`_historyCurrentState` equals its top entry. -/
def MarkerInv (s : HState) : Prop :=
  s.historyUndo ≠ [] ∧ s.historyUndo.head? = some s.historyCurrentState

/-- A drag in progress: each intermediate frame moves the document to some
`d` and fires `object:moving`. -/
def dragMoves (fuel : Nat) (ds : List Doc) (s : HState) : HState :=
  ds.foldl (fun st d =>
    exec fuel (Act.deliver EventName.objectMoving Payload.noData)
      { st with doc := d }) s

/-- A full drag: the intermediate `object:moving` frames followed by the
committed document `df` and its `object:modified` notification. -/
def dragSequence (fuel : Nat) (ds : List Doc) (df : Doc) (s : HState) : HState :=
  exec fuel (Act.deliver EventName.objectModified Payload.noData)
    { dragMoves fuel ds s with doc := df }

/-- The history-relevant core of the state: the two stacks, the marker, the
processing flag, the emitted history events, the error count, and the
subscription bookkeeping.  `SameCore s t` says `t` agrees with `s` on all
of them. -/
structure SameCore (s t : HState) : Prop where
  undo : t.historyUndo = s.historyUndo
  redo : t.historyRedo = s.historyRedo
  marker : t.historyCurrentState = s.historyCurrentState
  processing : t.historyProcessing = s.historyProcessing
  firedEq : t.fired = s.fired
  errorsEq : t.errors = s.errors
  subscribedEq : t.subscribed = s.subscribed
  bindCounterEq : t.bindCounter = s.bindCounter

/-- The handlers the constructor's wiring attaches to each event. -/
def stdHandlers : EventName → List Handler
  | EventName.pathCreated => [⟨Method.saveAction, 0⟩]
  | EventName.erasingEnd => [⟨Method.saveAction, 1⟩]
  | EventName.objectAdded => [⟨Method.saveAction, 2⟩]
  | EventName.objectRemoved => [⟨Method.hObjectRemoved, 3⟩]
  | EventName.objectMoving => [⟨Method.hObjectMoving, 4⟩]
  | EventName.objectModified => [⟨Method.hObjectModified, 5⟩]
  | EventName.selectionCreated => [⟨Method.hSelectionCreated, 6⟩]
  | EventName.selectionUpdated => [⟨Method.hSelectionUpdated, 7⟩]
  | EventName.selectionCleared => [⟨Method.hSelectionCleared, 8⟩]
  | EventName.canvasCleared => []

/-- The compound branch of `_handleObjectRemoved` (canvas.ts lines
327-333), named so the theorems can reason about it: set the processing
guard, snapshot and clear the pending selection, remove every member still
on the canvas (each removal re-firing `object:removed`), discard the active
selection, release the guard, and run one capture pass.  `exec` computes
exactly this term in its compound branch. -/
def compoundRemoval (n : Nat) (s : HState) : HState :=
  let s1 := { s with historyProcessing := true }
  let objectsToRemove := s1.selectedObjects
  let s2 := { s1 with selectedObjects := [] }
  let s3 := objectsToRemove.foldl (fun st o =>
      if o ∈ st.doc then
        exec n (Act.deliver EventName.objectRemoved (Payload.target o))
          { st with doc := st.doc.erase o }
      else st) s2
  let s4 := if s3.activeObjects.isEmpty then s3
            else exec n (Act.deliver EventName.selectionCleared Payload.noData)
                   { s3 with activeObjects := [] }
  let s5 := { s4 with historyProcessing := false }
  historySaveAction s5

/-- A state whose undo stack holds a well-formed bootstrap below a
malformed snapshot token, used to exercise the restore-failure path of
`undo()`; the document currently holds one object and the marker matches
the top entry. -/
def badState : HState :=
  { doc := [1], activeObjects := [], historyUndo := [Token.good [1], Token.bad 0],
    historyRedo := [], selectedObjects := [], isMultiSelection := false,
    historyIsMoving := false, historyProcessing := false,
    historyCurrentState := Token.good [1], subscribed := bindList 0,
    bindCounter := 9, notifications := [], fired := [], errors := 0 }

/-- A capture pass during replay or a transient move is a no-op. -/
theorem saveAction_processing (s : HState) (h : s.historyProcessing = true) :
    historySaveAction s = s := by
  simp [historySaveAction, h]

/-- `SameCore` is reflexive. -/
theorem sameCore_refl (s : HState) : SameCore s s :=
  ⟨rfl, rfl, rfl, rfl, rfl, rfl, rfl, rfl⟩

/-- `SameCore` is transitive. -/
theorem sameCore_trans {s t u : HState} (h1 : SameCore s t) (h2 : SameCore t u) :
    SameCore s u :=
  ⟨h2.undo.trans h1.undo, h2.redo.trans h1.redo, h2.marker.trans h1.marker,
   h2.processing.trans h1.processing, h2.firedEq.trans h1.firedEq,
   h2.errorsEq.trans h1.errorsEq, h2.subscribedEq.trans h1.subscribedEq,
   h2.bindCounterEq.trans h1.bindCounterEq⟩

/-- Folding a step function that preserves a state predicate preserves it. -/
theorem foldl_preserves {α : Type} (P : HState → Prop) (f : HState → α → HState)
    (hf : ∀ st a, P st → P (f st a)) :
    ∀ (l : List α) (st : HState), P st → P (l.foldl f st) := by
  intro l
  induction l with
  | nil => intro st h; exact h
  | cons hd tl ihl =>
      intro st h
      rw [List.foldl_cons]
      exact ihl (f st hd) (hf st hd h)

/-- Frame lemma: while `_historyProcessing` is set, no event delivery and no
handler run can touch the document, the stacks, the marker, the emitted
history events, the error count, or the subscriptions — the replay guard
makes every notification echo inert. -/
theorem exec_frame (n : Nat) : ∀ (a : Act) (s : HState),
    s.historyProcessing = true →
    SameCore s (exec n a s) ∧ (exec n a s).doc = s.doc := by
  induction n with
  | zero => intro a s _; exact ⟨sameCore_refl s, rfl⟩
  | succ n ih =>
    intro a s hp
    cases a with
    | deliver ev pl =>
        show SameCore s ((handlersFor _ ev).foldl _ _) ∧ _
        have key := foldl_preserves
          (fun st => SameCore s st ∧ st.doc = s.doc)
          (fun st h => exec n (Act.run h.method pl) st)
          (fun st h ⟨hc, hdoc⟩ => by
            have hp1 : st.historyProcessing = true := hc.processing.trans hp
            obtain ⟨hc2, hdoc2⟩ := ih (Act.run h.method pl) st hp1
            exact ⟨sameCore_trans hc hc2, hdoc2.trans hdoc⟩)
          (handlersFor { s with notifications := s.notifications ++ [(ev, pl)] } ev)
          { s with notifications := s.notifications ++ [(ev, pl)] }
          ⟨⟨rfl, rfl, rfl, rfl, rfl, rfl, rfl, rfl⟩, rfl⟩
        exact key
    | run m pl =>
        have base : SameCore s (historySaveAction s) ∧ (historySaveAction s).doc = s.doc := by
          rw [saveAction_processing s hp]
          exact ⟨sameCore_refl s, rfl⟩
        have base2 : SameCore s (historySaveAction { s with historyIsMoving := false }) ∧
            (historySaveAction { s with historyIsMoving := false }).doc = s.doc := by
          rw [saveAction_processing { s with historyIsMoving := false } hp]
          exact ⟨⟨rfl, rfl, rfl, rfl, rfl, rfl, rfl, rfl⟩, rfl⟩
        cases m with
        | saveAction => cases pl <;> exact base
        | hObjectMoving => cases pl <;> exact ⟨⟨rfl, rfl, rfl, rfl, rfl, rfl, rfl, rfl⟩, rfl⟩
        | hObjectModified => cases pl <;> exact base2
        | hSelectionCreated =>
            cases pl with
            | selected objs =>
                by_cases hlen : objs.length > 1
                · have hres : exec (n+1) (Act.run Method.hSelectionCreated
                      (Payload.selected objs)) s =
                      { s with selectedObjects := objs, isMultiSelection := true } :=
                    if_pos hlen
                  rw [hres]
                  exact ⟨⟨rfl, rfl, rfl, rfl, rfl, rfl, rfl, rfl⟩, rfl⟩
                · have hres : exec (n+1) (Act.run Method.hSelectionCreated
                      (Payload.selected objs)) s = s := if_neg hlen
                  rw [hres]
                  exact ⟨sameCore_refl s, rfl⟩
            | noData => exact ⟨sameCore_refl s, rfl⟩
            | target o => exact ⟨sameCore_refl s, rfl⟩
        | hSelectionUpdated =>
            cases pl <;> exact ⟨⟨rfl, rfl, rfl, rfl, rfl, rfl, rfl, rfl⟩, rfl⟩
        | hSelectionCleared =>
            cases pl <;> exact ⟨⟨rfl, rfl, rfl, rfl, rfl, rfl, rfl, rfl⟩, rfl⟩
        | hObjectRemoved =>
            cases pl with
            | target t =>
                have hres : exec (n+1) (Act.run Method.hObjectRemoved (Payload.target t)) s =
                    historySaveAction s := by
                  show (if !s.historyProcessing && s.isMultiSelection
                          && s.selectedObjects.contains t then _
                        else historySaveAction s) = historySaveAction s
                  rw [hp]
                  rfl
                rw [hres]
                exact base
            | noData => exact base
            | selected objs => exact base

/-- fabric's `clear()` during replay leaves the history core intact and
empties the document. -/
theorem canvasClearRaw_facts (fuel : Nat) (s : HState)
    (hp : s.historyProcessing = true) :
    SameCore s (canvasClearRaw fuel s) ∧ (canvasClearRaw fuel s).doc = [] := by
  have h := exec_frame fuel (Act.deliver EventName.canvasCleared Payload.noData)
    { s with doc := [] } hp
  have hmid : SameCore s { s with doc := ([] : Doc) } :=
    ⟨rfl, rfl, rfl, rfl, rfl, rfl, rfl, rfl⟩
  exact ⟨sameCore_trans hmid h.1, h.2⟩

/-- `discardActiveObject()` during replay leaves the history core and the
document intact. -/
theorem discardActiveObject_facts (fuel : Nat) (s : HState)
    (hp : s.historyProcessing = true) :
    SameCore s (discardActiveObject fuel s) ∧
    (discardActiveObject fuel s).doc = s.doc := by
  unfold discardActiveObject
  split
  · exact ⟨sameCore_refl s, rfl⟩
  · have h := exec_frame fuel (Act.deliver EventName.selectionCleared Payload.noData)
      { s with activeObjects := [] } hp
    have hmid : SameCore s { s with activeObjects := ([] : List Obj) } :=
      ⟨rfl, rfl, rfl, rfl, rfl, rfl, rfl, rfl⟩
    exact ⟨sameCore_trans hmid h.1, h.2⟩

/-- `loadFromJSON` during replay re-adds exactly the decoded objects and
leaves the history core intact (the re-fired `object:added` echoes being
suppressed by the processing guard). -/
theorem loadFromJSON_facts (fuel : Nat) : ∀ (d : Doc) (s : HState),
    s.historyProcessing = true →
    SameCore s (loadFromJSON fuel d s) ∧ (loadFromJSON fuel d s).doc = s.doc ++ d := by
  intro d
  induction d with
  | nil =>
      intro s hp
      exact ⟨sameCore_refl s, by simp [loadFromJSON]⟩
  | cons o os ihd =>
      intro s hp
      have hstep := exec_frame fuel (Act.deliver EventName.objectAdded (Payload.target o))
        { s with doc := s.doc ++ [o] } hp
      have hmid : SameCore s { s with doc := s.doc ++ [o] } :=
        ⟨rfl, rfl, rfl, rfl, rfl, rfl, rfl, rfl⟩
      have hc1 : SameCore s (exec fuel (Act.deliver EventName.objectAdded (Payload.target o))
          { s with doc := s.doc ++ [o] }) :=
        sameCore_trans hmid hstep.1
      have hp1 : (exec fuel (Act.deliver EventName.objectAdded (Payload.target o))
          { s with doc := s.doc ++ [o] }).historyProcessing = true :=
        hc1.processing.trans hp
      obtain ⟨hc2, hd2⟩ := ihd _ hp1
      refine ⟨sameCore_trans hc1 hc2, ?_⟩
      show (loadFromJSON fuel os _).doc = s.doc ++ (o :: os)
      rw [hd2, hstep.2]
      simp

/-- `_loadFromHistory` during replay: the stacks, marker, emitted history
events and wiring are untouched; the processing flag ends false; on a parse
failure one error is logged and the document is left cleared (the `clear()`
preceding the parse already emptied it); on success the decoded document is
installed. -/
theorem loadFromHistory_facts (fuel : Nat) (tok : Token) (s : HState)
    (hp : s.historyProcessing = true) :
    (loadFromHistory fuel tok s).historyUndo = s.historyUndo ∧
    (loadFromHistory fuel tok s).historyRedo = s.historyRedo ∧
    (loadFromHistory fuel tok s).historyCurrentState = s.historyCurrentState ∧
    (loadFromHistory fuel tok s).fired = s.fired ∧
    (loadFromHistory fuel tok s).subscribed = s.subscribed ∧
    (loadFromHistory fuel tok s).historyProcessing = false ∧
    (decode tok = none →
        (loadFromHistory fuel tok s).errors = s.errors + 1 ∧
        (loadFromHistory fuel tok s).doc = []) ∧
    (∀ d, decode tok = some d →
        (loadFromHistory fuel tok s).errors = s.errors ∧
        (loadFromHistory fuel tok s).doc = d) := by
  obtain ⟨hc1, hd1⟩ := canvasClearRaw_facts fuel s hp
  have hp1 : (canvasClearRaw fuel s).historyProcessing = true := hc1.processing.trans hp
  obtain ⟨hc2, hd2⟩ := discardActiveObject_facts fuel (canvasClearRaw fuel s) hp1
  have hc12 := sameCore_trans hc1 hc2
  have hp2 : (discardActiveObject fuel (canvasClearRaw fuel s)).historyProcessing = true :=
    hc12.processing.trans hp
  cases htok : decode tok with
  | none =>
      have hres : loadFromHistory fuel tok s =
          { discardActiveObject fuel (canvasClearRaw fuel s) with
            errors := (discardActiveObject fuel (canvasClearRaw fuel s)).errors + 1,
            historyProcessing := false } := by
        unfold loadFromHistory
        rw [htok]
      rw [hres]
      refine ⟨hc12.undo, hc12.redo, hc12.marker, hc12.firedEq, hc12.subscribedEq, rfl,
        fun _ => ⟨by rw [hc12.errorsEq],
          by show (discardActiveObject fuel (canvasClearRaw fuel s)).doc = []
             rw [hd2, hd1]⟩,
        fun d hd => Option.noConfusion hd⟩
  | some d0 =>
      obtain ⟨hc3, hd3⟩ :=
        loadFromJSON_facts fuel d0 (discardActiveObject fuel (canvasClearRaw fuel s)) hp2
      have hc123 := sameCore_trans hc12 hc3
      have hres : loadFromHistory fuel tok s =
          { loadFromJSON fuel d0 (discardActiveObject fuel (canvasClearRaw fuel s)) with
            historyProcessing := false } := by
        unfold loadFromHistory
        rw [htok]
      rw [hres]
      refine ⟨hc123.undo, hc123.redo, hc123.marker, hc123.firedEq, hc123.subscribedEq, rfl,
        fun hb => Option.noConfusion hb, fun d hd => ?_⟩
      obtain rfl : d0 = d := Option.some.inj hd
      refine ⟨hc123.errorsEq, ?_⟩
      show (loadFromJSON fuel d0 (discardActiveObject fuel (canvasClearRaw fuel s))).doc = d0
      rw [hd3, hd2, hd1]
      simp

/-- Eliminating the control flow of `undo()` when the undo stack has at
least two entries. -/
theorem undo_eq (fuel : Nat) (s : HState) (t prev : Token) (rest : List Token)
    (hU : s.historyUndo = t :: prev :: rest) :
    undo fuel s =
      { loadFromHistory fuel prev
          { s with historyProcessing := true, historyUndo := prev :: rest,
                   historyRedo := t :: s.historyRedo, historyCurrentState := prev } with
        fired := (loadFromHistory fuel prev
          { s with historyProcessing := true, historyUndo := prev :: rest,
                   historyRedo := t :: s.historyRedo, historyCurrentState := prev }).fired
          ++ [HEvent.undone t] } := by
  obtain ⟨sdoc, sao, shu, shr, ssel, smul, smov, sproc, smark, ssub, sbc, snot, sfir, serr⟩ := s
  dsimp only at hU
  subst hU
  rfl

/-- Eliminating the control flow of `redo()` when the redo stack is
non-empty. -/
theorem redo_eq (fuel : Nat) (s : HState) (t : Token) (rts : List Token)
    (hR : s.historyRedo = t :: rts) :
    redo fuel s =
      { loadFromHistory fuel t
          { s with historyProcessing := true, historyRedo := rts,
                   historyUndo := t :: s.historyUndo, historyCurrentState := t } with
        fired := (loadFromHistory fuel t
          { s with historyProcessing := true, historyRedo := rts,
                   historyUndo := t :: s.historyUndo, historyCurrentState := t }).fired
          ++ [HEvent.redone t] } := by
  obtain ⟨sdoc, sao, shu, shr, ssel, smul, smov, sproc, smark, ssub, sbc, snot, sfir, serr⟩ := s
  dsimp only at hR
  subst hR
  rfl

/-- `undo()` on a stack with at least two entries: it pops the top onto the
redo stack, sets the marker to the new top, restores it (document cleared
then reloaded; one error and an empty document if the token cannot be
parsed), ends with the processing flag clear, and fires exactly one
`history:undo`. -/
theorem undo_pops (fuel : Nat) (s : HState) (t prev : Token) (rest : List Token)
    (hU : s.historyUndo = t :: prev :: rest) :
    (undo fuel s).historyUndo = prev :: rest ∧
    (undo fuel s).historyRedo = t :: s.historyRedo ∧
    (undo fuel s).historyCurrentState = prev ∧
    (undo fuel s).fired = s.fired ++ [HEvent.undone t] ∧
    (undo fuel s).historyProcessing = false ∧
    (undo fuel s).subscribed = s.subscribed ∧
    (decode prev = none →
      (undo fuel s).errors = s.errors + 1 ∧ (undo fuel s).doc = []) ∧
    (∀ d, decode prev = some d →
      (undo fuel s).errors = s.errors ∧ (undo fuel s).doc = d) := by
  obtain ⟨l1, l2, l3, l4, l5, l6, l7, l8⟩ := loadFromHistory_facts fuel prev
    { s with historyProcessing := true, historyUndo := prev :: rest,
             historyRedo := t :: s.historyRedo, historyCurrentState := prev } rfl
  rw [undo_eq fuel s t prev rest hU]
  set L := loadFromHistory fuel prev
    { s with historyProcessing := true, historyUndo := prev :: rest,
             historyRedo := t :: s.historyRedo, historyCurrentState := prev } with hL
  refine ⟨l1, l2, l3, ?_, l6, l5, fun hb => l7 hb, fun d hd => l8 d hd⟩
  show L.fired ++ [HEvent.undone t] = s.fired ++ [HEvent.undone t]
  rw [l4]

/-- `redo()` on a non-empty redo stack: it pops the top onto the undo
stack, sets the marker to it, restores it, ends with the processing flag
clear, and fires exactly one `history:redo`. -/
theorem redo_pops (fuel : Nat) (s : HState) (t : Token) (rts : List Token)
    (hR : s.historyRedo = t :: rts) :
    (redo fuel s).historyRedo = rts ∧
    (redo fuel s).historyUndo = t :: s.historyUndo ∧
    (redo fuel s).historyCurrentState = t ∧
    (redo fuel s).fired = s.fired ++ [HEvent.redone t] ∧
    (redo fuel s).historyProcessing = false ∧
    (redo fuel s).subscribed = s.subscribed ∧
    (decode t = none →
      (redo fuel s).errors = s.errors + 1 ∧ (redo fuel s).doc = []) ∧
    (∀ d, decode t = some d →
      (redo fuel s).errors = s.errors ∧ (redo fuel s).doc = d) := by
  obtain ⟨l1, l2, l3, l4, l5, l6, l7, l8⟩ := loadFromHistory_facts fuel t
    { s with historyProcessing := true, historyRedo := rts,
             historyUndo := t :: s.historyUndo, historyCurrentState := t } rfl
  rw [redo_eq fuel s t rts hR]
  set L := loadFromHistory fuel t
    { s with historyProcessing := true, historyRedo := rts,
             historyUndo := t :: s.historyUndo, historyCurrentState := t } with hL
  refine ⟨l2, l1, l3, ?_, l6, l5, fun hb => l7 hb, fun d hd => l8 d hd⟩
  show L.fired ++ [HEvent.redone t] = s.fired ++ [HEvent.redone t]
  rw [l4]

/-- C2: Capture algorithm.  For every capture pass invoked while the
Replay-In-Progress flag and the Transient-Operation flag are both clear: if
the freshly serialized token equals the Current-State Marker the state is
unchanged (stacks, marker, and no notification); otherwise the token is
pushed onto the undo stack, the marker is set to it, the redo stack is
cleared (so `canRedo()` is false), and exactly one `history:append` is
emitted carrying the token and the bootstrap flag (`false`: the capture
pass never records the bootstrap entry, which `_historySaveInitialState`
installs without firing). -/
theorem capture_algorithm (s : HState)
    (hp : s.historyProcessing = false) (hm : s.historyIsMoving = false) :
    (historyCurrent s = s.historyCurrentState → historySaveAction s = s) ∧
    (historyCurrent s ≠ s.historyCurrentState →
      (historySaveAction s).historyUndo = historyCurrent s :: s.historyUndo ∧
      (historySaveAction s).historyCurrentState = historyCurrent s ∧
      (historySaveAction s).historyRedo = [] ∧
      canRedo (historySaveAction s) = false ∧
      (historySaveAction s).fired =
        s.fired ++ [HEvent.append (historyCurrent s) false]) := by
  constructor
  · intro he
    unfold historySaveAction
    rw [hp, hm]
    show (if s.historyCurrentState = historyCurrent s then s else _) = s
    rw [if_pos he.symm]
  · intro hne
    have hcond : ¬ (s.historyCurrentState = historyCurrent s) := fun h => hne h.symm
    have hres : historySaveAction s =
        { s with historyUndo := historyCurrent s :: s.historyUndo,
                 historyCurrentState := historyCurrent s,
                 historyRedo := [],
                 fired := s.fired ++ [HEvent.append (historyCurrent s) false] } := by
      unfold historySaveAction
      rw [hp, hm]
      show (if s.historyCurrentState = historyCurrent s then s else _) = _
      rw [if_neg hcond]
    rw [hres]
    exact ⟨rfl, rfl, rfl, rfl, rfl⟩

/-- Witness for C2 at a concrete input: a fresh canvas whose document then
holds one object; the capture pushes the serialized token. -/
theorem capture_algorithm_witness :
    (historySaveAction { mkCanvas [] with doc := [1] }).historyUndo =
      historyCurrent { mkCanvas [] with doc := [1] } ::
        ({ mkCanvas [] with doc := [1] } : HState).historyUndo ∧
    (historySaveAction { mkCanvas [] with doc := [1] }).fired =
      ({ mkCanvas [] with doc := [1] } : HState).fired ++
        [HEvent.append (historyCurrent { mkCanvas [] with doc := [1] }) false] := by
  have h := (capture_algorithm { mkCanvas [] with doc := [1] }
    (by decide) (by decide)).2 (by decide)
  exact ⟨h.1, h.2.2.2.2⟩

/-- C3: No-op undo past the bootstrap.  Whenever `canUndo()` is false,
`undo()` returns the state unchanged: the document, both stacks, the
marker, the Replay-In-Progress flag, and the notification logs are all
untouched. -/
theorem noop_undo_past_bootstrap (fuel : Nat) (s : HState)
    (h : canUndo s = false) : undo fuel s = s := by
  unfold canUndo at h
  have hle : s.historyUndo.length ≤ 1 := Nat.not_lt.mp (of_decide_eq_false h)
  unfold undo
  rw [if_pos hle]

/-- Witness for C3: a freshly constructed canvas has `canUndo()` false and
`undo()` leaves it exactly as it was. -/
theorem noop_undo_past_bootstrap_witness :
    canUndo (mkCanvas []) = false ∧ undo 3 (mkCanvas []) = mkCanvas [] :=
  ⟨by decide, noop_undo_past_bootstrap 3 (mkCanvas []) (by decide)⟩

/-- C4 counterexample: `undo()` over an unparseable restore token does NOT
leave the document and stacks in their pre-restore state.  In `badState`
the token below the top is malformed; after `undo 9` the document has been
cleared (the `clear()` in `_loadFromHistory` runs before `JSON.parse`
throws) and both stacks retain the completed pop/push. -/
theorem restore_failure_counterexample :
    decode (Token.bad 0) = none ∧
    (undo 9 badState).doc ≠ badState.doc ∧
    (undo 9 badState).historyUndo ≠ badState.historyUndo ∧
    (undo 9 badState).historyRedo ≠ badState.historyRedo := by decide

/-- C4 amended: for every `undo()` whose restore token cannot be parsed,
the engine reports the failure (one error logged) and clears the
Replay-In-Progress flag — but the stacks keep the completed pop/push
(top moved to the redo stack), the Current-State Marker is set to the
unparseable token, the document is left cleared (empty) rather than in its
pre-restore state, and the `history:undo` notification still fires. -/
theorem restore_failure_amended (fuel : Nat) (s : HState) (t prev : Token)
    (rest : List Token) (hU : s.historyUndo = t :: prev :: rest)
    (hbad : decode prev = none) :
    (undo fuel s).historyProcessing = false ∧
    (undo fuel s).errors = s.errors + 1 ∧
    (undo fuel s).historyUndo = prev :: rest ∧
    (undo fuel s).historyRedo = t :: s.historyRedo ∧
    (undo fuel s).historyCurrentState = prev ∧
    (undo fuel s).doc = [] ∧
    (undo fuel s).fired = s.fired ++ [HEvent.undone t] := by
  obtain ⟨l1, l2, l3, l4, l5, _, l7, _⟩ := undo_pops fuel s t prev rest hU
  obtain ⟨e1, e2⟩ := l7 hbad
  exact ⟨l5, e1, l1, l2, l3, e2, l4⟩

/-- Witness for the amended C4 at the concrete `badState`. -/
theorem restore_failure_amended_witness :
    (undo 9 badState).errors = badState.errors + 1 ∧
    (undo 9 badState).doc = [] ∧
    (undo 9 badState).historyProcessing = false := by
  have h := restore_failure_amended 9 badState (Token.good [1]) (Token.bad 0) []
    (by decide) (by decide)
  exact ⟨h.2.1, h.2.2.2.2.2.1, h.1⟩

/-- C7: Replay non-recursion.  For every `undo()` on a stack with more than
the bootstrap and every `redo()` on a non-empty redo stack, the stacks end
exactly as the direct pop/push dictates and no `history:append` is emitted:
every mutation notification echoed by the restore (the clearing and the
reloading of the document) is ignored by the capture logic, for any fuel
and any wiring. -/
theorem replay_non_recursion :
    (∀ (fuel : Nat) (s : HState) (t prev : Token) (rest : List Token),
      s.historyUndo = t :: prev :: rest →
        (undo fuel s).historyUndo = prev :: rest ∧
        (undo fuel s).historyRedo = t :: s.historyRedo ∧
        appendEvents (undo fuel s) = appendEvents s) ∧
    (∀ (fuel : Nat) (s : HState) (t : Token) (rts : List Token),
      s.historyRedo = t :: rts →
        (redo fuel s).historyRedo = rts ∧
        (redo fuel s).historyUndo = t :: s.historyUndo ∧
        appendEvents (redo fuel s) = appendEvents s) := by
  constructor
  · intro fuel s t prev rest hU
    obtain ⟨l1, l2, _, l4, _, _, _, _⟩ := undo_pops fuel s t prev rest hU
    refine ⟨l1, l2, ?_⟩
    unfold appendEvents
    rw [l4, List.filter_append]
    simp [isAppend]
  · intro fuel s t rts hR
    obtain ⟨l1, l2, _, l4, _, _, _, _⟩ := redo_pops fuel s t rts hR
    refine ⟨l1, l2, ?_⟩
    unfold appendEvents
    rw [l4, List.filter_append]
    simp [isAppend]

/-- Witness for C7 at a concrete input: one object added, then undone. -/
theorem replay_non_recursion_witness :
    appendEvents (undo 9 (canvasAdd 5 1 (mkCanvas []))) =
      appendEvents (canvasAdd 5 1 (mkCanvas [])) :=
  (replay_non_recursion.1 9 (canvasAdd 5 1 (mkCanvas []))
    (Token.good [1]) (Token.good []) [] (by decide)).2.2

/-- C8: `clearHistory()` resets the undo stack to a single fresh bootstrap
entry equal to the current document state (never to an empty stack), clears
the redo stack, emits one `history:cleared` notification, and does not
alter the document; afterwards `canUndo()` and `canRedo()` are both
false. -/
theorem clear_history_resets (s : HState) :
    (clearHistory s).historyUndo = [historyCurrent s] ∧
    (clearHistory s).historyCurrentState = historyCurrent s ∧
    (clearHistory s).historyRedo = [] ∧
    (clearHistory s).doc = s.doc ∧
    (clearHistory s).fired = s.fired ++ [HEvent.cleared] ∧
    canUndo (clearHistory s) = false ∧
    canRedo (clearHistory s) = false :=
  ⟨rfl, rfl, rfl, rfl, rfl, rfl, rfl⟩

/-- The `object:removed` handler takes its compound branch exactly when the
batching condition holds. -/
theorem exec_objectRemoved_true (n : Nat) (s : HState) (t : Obj)
    (hc : (!s.historyProcessing && s.isMultiSelection
            && s.selectedObjects.contains t) = true) :
    exec (n+1) (Act.run Method.hObjectRemoved (Payload.target t)) s =
      compoundRemoval n s := by
  show (if !s.historyProcessing && s.isMultiSelection
          && s.selectedObjects.contains t then _
        else historySaveAction s) = compoundRemoval n s
  rw [hc]
  rfl

/-- When the batching condition fails, the removal notification passes
through to the ordinary capture pass. -/
theorem exec_objectRemoved_false (n : Nat) (s : HState) (t : Obj)
    (hc : (!s.historyProcessing && s.isMultiSelection
            && s.selectedObjects.contains t) = false) :
    exec (n+1) (Act.run Method.hObjectRemoved (Payload.target t)) s =
      historySaveAction s := by
  show (if !s.historyProcessing && s.isMultiSelection
          && s.selectedObjects.contains t then _
        else historySaveAction s) = historySaveAction s
  rw [hc]
  rfl

/-- The compound removal is one capture pass over a state whose history
core is untouched and whose processing flag has been released. -/
theorem compoundRemoval_core (n : Nat) (s : HState) :
    ∃ s5 : HState, compoundRemoval n s = historySaveAction s5 ∧
      s5.historyUndo = s.historyUndo ∧
      s5.historyRedo = s.historyRedo ∧
      s5.historyCurrentState = s.historyCurrentState ∧
      s5.fired = s.fired ∧
      s5.errors = s.errors ∧
      s5.subscribed = s.subscribed ∧
      s5.historyProcessing = false := by
  have hfold := foldl_preserves
    (fun st => st.historyProcessing = true ∧ st.historyUndo = s.historyUndo ∧
      st.historyRedo = s.historyRedo ∧ st.historyCurrentState = s.historyCurrentState ∧
      st.fired = s.fired ∧ st.errors = s.errors ∧ st.subscribed = s.subscribed)
    (fun st o =>
      if o ∈ st.doc then
        exec n (Act.deliver EventName.objectRemoved (Payload.target o))
          { st with doc := st.doc.erase o }
      else st)
    (fun st o hst => by
      obtain ⟨h1, h2, h3, h4, h5, h6, h7⟩ := hst
      dsimp only
      split
      · have hf := (exec_frame n (Act.deliver EventName.objectRemoved (Payload.target o))
          { st with doc := st.doc.erase o } h1).1
        exact ⟨hf.processing.trans h1, hf.undo.trans h2, hf.redo.trans h3,
          hf.marker.trans h4, hf.firedEq.trans h5, hf.errorsEq.trans h6,
          hf.subscribedEq.trans h7⟩
      · exact ⟨h1, h2, h3, h4, h5, h6, h7⟩)
    ({ s with historyProcessing := true }).selectedObjects
    { { s with historyProcessing := true } with selectedObjects := [] }
    ⟨rfl, rfl, rfl, rfl, rfl, rfl, rfl⟩
  have hdisc : ∀ st : HState,
      (st.historyProcessing = true ∧ st.historyUndo = s.historyUndo ∧
       st.historyRedo = s.historyRedo ∧ st.historyCurrentState = s.historyCurrentState ∧
       st.fired = s.fired ∧ st.errors = s.errors ∧ st.subscribed = s.subscribed) →
      ((if st.activeObjects.isEmpty then st
        else exec n (Act.deliver EventName.selectionCleared Payload.noData)
          { st with activeObjects := [] }).historyProcessing = true ∧
       (if st.activeObjects.isEmpty then st
        else exec n (Act.deliver EventName.selectionCleared Payload.noData)
          { st with activeObjects := [] }).historyUndo = s.historyUndo ∧
       (if st.activeObjects.isEmpty then st
        else exec n (Act.deliver EventName.selectionCleared Payload.noData)
          { st with activeObjects := [] }).historyRedo = s.historyRedo ∧
       (if st.activeObjects.isEmpty then st
        else exec n (Act.deliver EventName.selectionCleared Payload.noData)
          { st with activeObjects := [] }).historyCurrentState = s.historyCurrentState ∧
       (if st.activeObjects.isEmpty then st
        else exec n (Act.deliver EventName.selectionCleared Payload.noData)
          { st with activeObjects := [] }).fired = s.fired ∧
       (if st.activeObjects.isEmpty then st
        else exec n (Act.deliver EventName.selectionCleared Payload.noData)
          { st with activeObjects := [] }).errors = s.errors ∧
       (if st.activeObjects.isEmpty then st
        else exec n (Act.deliver EventName.selectionCleared Payload.noData)
          { st with activeObjects := [] }).subscribed = s.subscribed) := by
    intro st hst
    obtain ⟨h1, h2, h3, h4, h5, h6, h7⟩ := hst
    split
    · exact ⟨h1, h2, h3, h4, h5, h6, h7⟩
    · have hf := (exec_frame n (Act.deliver EventName.selectionCleared Payload.noData)
        { st with activeObjects := [] } h1).1
      exact ⟨hf.processing.trans h1, hf.undo.trans h2, hf.redo.trans h3,
        hf.marker.trans h4, hf.firedEq.trans h5, hf.errorsEq.trans h6,
        hf.subscribedEq.trans h7⟩
  obtain ⟨p1, p2, p3, p4, p5, p6, p7⟩ := hdisc _ hfold
  exact ⟨_, rfl, p2, p3, p4, p5, p6, p7, rfl⟩

/-- One capture pass preserves the marker-tracks-top invariant: either it
returns the state unchanged, or it pushes the new token and points the
marker at it. -/
theorem saveAction_inv (s : HState) (h : MarkerInv s) :
    MarkerInv (historySaveAction s) := by
  unfold historySaveAction
  split
  · exact h
  · show MarkerInv (if s.historyCurrentState = historyCurrent s then s else _)
    split
    · exact h
    · exact ⟨List.cons_ne_nil _ _, rfl⟩

/-- Every event delivery and handler run preserves the marker-tracks-top
invariant. -/
theorem exec_inv (n : Nat) : ∀ (a : Act) (s : HState),
    MarkerInv s → MarkerInv (exec n a s) := by
  induction n with
  | zero => intro a s h; exact h
  | succ n ih =>
    intro a s h
    cases a with
    | deliver ev pl =>
        show MarkerInv ((handlersFor _ ev).foldl _ _)
        exact foldl_preserves MarkerInv _
          (fun st hh hst => ih (Act.run hh.method pl) st hst) _ _ h
    | run m pl =>
        cases m with
        | saveAction => cases pl <;> exact saveAction_inv s h
        | hObjectMoving => cases pl <;> exact h
        | hObjectModified =>
            cases pl <;> exact saveAction_inv { s with historyIsMoving := false } h
        | hSelectionCreated =>
            cases pl with
            | selected objs =>
                by_cases hlen : objs.length > 1
                · have hres : exec (n+1) (Act.run Method.hSelectionCreated
                      (Payload.selected objs)) s =
                      { s with selectedObjects := objs, isMultiSelection := true } :=
                    if_pos hlen
                  rw [hres]; exact h
                · have hres : exec (n+1) (Act.run Method.hSelectionCreated
                      (Payload.selected objs)) s = s := if_neg hlen
                  rw [hres]; exact h
            | noData => exact h
            | target o => exact h
        | hSelectionUpdated => cases pl <;> exact h
        | hSelectionCleared => cases pl <;> exact h
        | hObjectRemoved =>
            cases pl with
            | noData => exact saveAction_inv s h
            | selected objs => exact saveAction_inv s h
            | target t =>
                cases htc : (!s.historyProcessing && s.isMultiSelection
                    && s.selectedObjects.contains t) with
                | false =>
                    rw [exec_objectRemoved_false n s t htc]
                    exact saveAction_inv s h
                | true =>
                    rw [exec_objectRemoved_true n s t htc]
                    obtain ⟨s5, he, hu, _, hm, _, _, _, _⟩ := compoundRemoval_core n s
                    rw [he]
                    apply saveAction_inv
                    exact ⟨hu ▸ h.1, by rw [hu, hm]; exact h.2⟩

/-- A fresh canvas satisfies the marker-tracks-top invariant. -/
theorem mkCanvas_inv (d : Doc) : MarkerInv (mkCanvas d) :=
  ⟨List.cons_ne_nil _ _, rfl⟩

/-- `undo()` preserves the marker-tracks-top invariant. -/
theorem undo_inv (fuel : Nat) (s : HState) (h : MarkerInv s) :
    MarkerInv (undo fuel s) := by
  match hU : s.historyUndo with
  | [] => exact absurd hU h.1
  | [t] =>
      have hle : s.historyUndo.length ≤ 1 := by rw [hU]; exact Nat.le_refl 1
      unfold undo
      rw [if_pos hle]
      exact h
  | t :: prev :: rest =>
      obtain ⟨l1, _, l3, _, _, _, _, _⟩ := undo_pops fuel s t prev rest hU
      exact ⟨by rw [l1]; exact List.cons_ne_nil _ _, by rw [l1, l3]; rfl⟩

/-- `redo()` preserves the marker-tracks-top invariant. -/
theorem redo_inv (fuel : Nat) (s : HState) (h : MarkerInv s) :
    MarkerInv (redo fuel s) := by
  match hR : s.historyRedo with
  | [] =>
      have hz : s.historyRedo.length = 0 := by rw [hR]; rfl
      unfold redo
      rw [if_pos hz]
      exact h
  | t :: rts =>
      obtain ⟨_, l2, l3, _, _, _, _, _⟩ := redo_pops fuel s t rts hR
      exact ⟨by rw [l2]; exact List.cons_ne_nil _ _, by rw [l2, l3]; rfl⟩

/-- `clearHistory()` establishes the marker-tracks-top invariant outright. -/
theorem clearHistory_inv (s : HState) : MarkerInv (clearHistory s) :=
  ⟨List.cons_ne_nil _ _, rfl⟩

/-- `clearCanvas()` preserves the marker-tracks-top invariant. -/
theorem clearCanvas_inv (fuel : Nat) (s : HState) (h : MarkerInv s) :
    MarkerInv (clearCanvas fuel s) := by
  unfold clearCanvas
  apply saveAction_inv
  obtain ⟨hc, _⟩ := canvasClearRaw_facts fuel { s with historyProcessing := true } rfl
  refine ⟨?_, ?_⟩
  · show (canvasClearRaw fuel { s with historyProcessing := true }).historyUndo ≠ []
    rw [hc.undo]
    exact h.1
  · show (canvasClearRaw fuel { s with historyProcessing := true }).historyUndo.head? =
      some (canvasClearRaw fuel { s with historyProcessing := true }).historyCurrentState
    rw [hc.undo, hc.marker]
    exact h.2

/-- C10: Marker-tracks-top invariant.  After construction and after every
completed operation of the engine — any event delivery or handler run
(mutation captures included), `undo()`, `redo()`, `clearHistory()`,
`clearCanvas()` — the undo stack is non-empty and `_historyCurrentState`
equals its top entry. -/
theorem marker_tracks_top :
    (∀ d : Doc, MarkerInv (mkCanvas d)) ∧
    (∀ (n : Nat) (a : Act) (s : HState), MarkerInv s → MarkerInv (exec n a s)) ∧
    (∀ (fuel : Nat) (s : HState), MarkerInv s → MarkerInv (undo fuel s)) ∧
    (∀ (fuel : Nat) (s : HState), MarkerInv s → MarkerInv (redo fuel s)) ∧
    (∀ s : HState, MarkerInv (clearHistory s)) ∧
    (∀ (fuel : Nat) (s : HState), MarkerInv s → MarkerInv (clearCanvas fuel s)) :=
  ⟨mkCanvas_inv, exec_inv, undo_inv, redo_inv, clearHistory_inv, clearCanvas_inv⟩

/-- Witness for C10: the invariant holds on a fresh canvas and is carried
through a concrete capture, an `undo()`, and a `clearCanvas()`. -/
theorem marker_tracks_top_witness :
    MarkerInv (undo 5 (exec 5 (Act.deliver EventName.objectAdded (Payload.target 1))
      (mkCanvas []))) :=
  marker_tracks_top.2.2.1 5 _
    (marker_tracks_top.2.1 5 (Act.deliver EventName.objectAdded (Payload.target 1))
      (mkCanvas []) (marker_tracks_top.1 []))

/-- C1: Undo/redo round-trip.  Starting from an empty document, adding
objects 1, 2, 3 produces one capture each (three `history:append`s); three
`undo()` calls leave the document empty and three `redo()` calls restore
[1, 2, 3] in original form, with the Current-State Marker equal to the
restored token after every step. -/
theorem undo_redo_round_trip :
    (appendEvents (canvasAdd 5 1 (mkCanvas []))).length = 1 ∧
    (appendEvents (canvasAdd 5 2 (canvasAdd 5 1 (mkCanvas [])))).length = 2 ∧
    (appendEvents (canvasAdd 5 3 (canvasAdd 5 2 (canvasAdd 5 1 (mkCanvas []))))).length = 3 ∧
    (canvasAdd 5 3 (canvasAdd 5 2 (canvasAdd 5 1 (mkCanvas [])))).doc = [1, 2, 3] ∧
    (undo 9 (canvasAdd 5 3 (canvasAdd 5 2 (canvasAdd 5 1 (mkCanvas []))))).doc = [1, 2] ∧
    (undo 9 (canvasAdd 5 3 (canvasAdd 5 2 (canvasAdd 5 1
      (mkCanvas []))))).historyCurrentState = Token.good [1, 2] ∧
    (undo 9 (undo 9 (canvasAdd 5 3 (canvasAdd 5 2 (canvasAdd 5 1
      (mkCanvas [])))))).doc = [1] ∧
    (undo 9 (undo 9 (canvasAdd 5 3 (canvasAdd 5 2 (canvasAdd 5 1
      (mkCanvas [])))))).historyCurrentState = Token.good [1] ∧
    (undo 9 (undo 9 (undo 9 (canvasAdd 5 3 (canvasAdd 5 2 (canvasAdd 5 1
      (mkCanvas []))))))).doc = [] ∧
    (undo 9 (undo 9 (undo 9 (canvasAdd 5 3 (canvasAdd 5 2 (canvasAdd 5 1
      (mkCanvas []))))))).historyCurrentState = Token.good [] ∧
    (redo 9 (undo 9 (undo 9 (undo 9 (canvasAdd 5 3 (canvasAdd 5 2 (canvasAdd 5 1
      (mkCanvas [])))))))).doc = [1] ∧
    (redo 9 (undo 9 (undo 9 (undo 9 (canvasAdd 5 3 (canvasAdd 5 2 (canvasAdd 5 1
      (mkCanvas [])))))))).historyCurrentState = Token.good [1] ∧
    (redo 9 (redo 9 (undo 9 (undo 9 (undo 9 (canvasAdd 5 3 (canvasAdd 5 2 (canvasAdd 5 1
      (mkCanvas []))))))))).doc = [1, 2] ∧
    (redo 9 (redo 9 (undo 9 (undo 9 (undo 9 (canvasAdd 5 3 (canvasAdd 5 2 (canvasAdd 5 1
      (mkCanvas []))))))))).historyCurrentState = Token.good [1, 2] ∧
    (redo 9 (redo 9 (redo 9 (undo 9 (undo 9 (undo 9 (canvasAdd 5 3 (canvasAdd 5 2
      (canvasAdd 5 1 (mkCanvas [])))))))))).doc = [1, 2, 3] ∧
    (redo 9 (redo 9 (redo 9 (undo 9 (undo 9 (undo 9 (canvasAdd 5 3 (canvasAdd 5 2
      (canvasAdd 5 1 (mkCanvas [])))))))))).historyCurrentState = Token.good [1, 2, 3] := by
  decide

/-- C9 evaluated at the failing input: `dispose()` calls `off` with freshly
bound handlers whose identities match none of those registered by `on`, so
the subscription list survives `dispose()` unchanged (and non-empty), and a
mutation notification delivered afterwards still triggers a capture: one
more `history:append` is emitted and an entry is pushed — the post-dispose
notification is not inert. -/
theorem dispose_listener_identity_bug :
    (dispose (mkCanvas [])).subscribed = (mkCanvas []).subscribed ∧
    (dispose (mkCanvas [])).subscribed ≠ [] ∧
    (appendEvents (canvasAdd 5 1 (dispose (mkCanvas [])))).length =
      (appendEvents (dispose (mkCanvas []))).length + 1 ∧
    (canvasAdd 5 1 (dispose (mkCanvas []))).historyUndo.length =
      (dispose (mkCanvas [])).historyUndo.length + 1 := by
  decide

/-- Under the constructor's wiring, each event dispatches to exactly its
one bound handler. -/
theorem handlersFor_wired (s : HState) (ev : EventName)
    (h : s.subscribed = bindList 0) : handlersFor s ev = stdHandlers ev := by
  unfold handlersFor
  rw [h]
  cases ev <;> rfl

/-- A capture pass in a quiescent state with a changed document pushes the
new token, points the marker at it, clears the redo stack, and fires one
`history:append`. -/
theorem saveAction_push (s : HState) (hp : s.historyProcessing = false)
    (hm : s.historyIsMoving = false)
    (hne : s.historyCurrentState ≠ historyCurrent s) :
    historySaveAction s =
      { s with historyUndo := historyCurrent s :: s.historyUndo,
               historyCurrentState := historyCurrent s,
               historyRedo := [],
               fired := s.fired ++ [HEvent.append (historyCurrent s) false] } := by
  unfold historySaveAction
  rw [hp, hm]
  show (if s.historyCurrentState = historyCurrent s then s else _) = _
  rw [if_neg hne]

/-- An `object:removed` echo arriving under the standard wiring while the
processing guard is set only logs the notification: the handler falls to
its ordinary branch and the capture pass declines. -/
theorem removed_echo (n : Nat) (st : HState) (pl : Payload)
    (hp : st.historyProcessing = true) (hw : st.subscribed = bindList 0) :
    exec n (Act.deliver EventName.objectRemoved pl) st =
      if n = 0 then st
      else { st with notifications :=
        st.notifications ++ [(EventName.objectRemoved, pl)] } := by
  match n with
  | 0 => rfl
  | Nat.succ m =>
      rw [if_neg (Nat.succ_ne_zero m)]
      show (handlersFor { st with notifications :=
          st.notifications ++ [(EventName.objectRemoved, pl)] }
          EventName.objectRemoved).foldl
        (fun st2 h => exec m (Act.run h.method pl) st2)
        { st with notifications :=
          st.notifications ++ [(EventName.objectRemoved, pl)] } = _
      rw [handlersFor_wired _ _ (show ({ st with notifications :=
          st.notifications ++ [(EventName.objectRemoved, pl)] } : HState).subscribed
          = bindList 0 from hw)]
      show exec m (Act.run Method.hObjectRemoved pl)
        { st with notifications :=
          st.notifications ++ [(EventName.objectRemoved, pl)] } = _
      match m with
      | 0 => rfl
      | Nat.succ k =>
          cases pl with
          | target t =>
              rw [exec_objectRemoved_false k _ t (by simp [hp])]
              exact saveAction_processing _ hp
          | noData => exact saveAction_processing _ hp
          | selected objs => exact saveAction_processing _ hp

/-- A `selection:cleared` echo under the standard wiring only clears the
selection bookkeeping (and logs the notification). -/
theorem selCleared_echo (n : Nat) (st : HState)
    (hw : st.subscribed = bindList 0) :
    exec n (Act.deliver EventName.selectionCleared Payload.noData) st =
      if n = 0 then st
      else if n = 1 then
        { st with notifications :=
          st.notifications ++ [(EventName.selectionCleared, Payload.noData)] }
      else
        { st with
            selectedObjects := [],
            isMultiSelection := false,
            notifications := st.notifications
              ++ [(EventName.selectionCleared, Payload.noData)] } := by
  match n with
  | 0 => rfl
  | Nat.succ m =>
      rw [if_neg (Nat.succ_ne_zero m)]
      show (handlersFor { st with notifications :=
          st.notifications ++ [(EventName.selectionCleared, Payload.noData)] }
          EventName.selectionCleared).foldl
        (fun st2 h => exec m (Act.run h.method Payload.noData) st2)
        { st with notifications :=
          st.notifications ++ [(EventName.selectionCleared, Payload.noData)] } = _
      rw [handlersFor_wired _ _ (show ({ st with notifications :=
          st.notifications ++ [(EventName.selectionCleared, Payload.noData)] } : HState).subscribed
          = bindList 0 from hw)]
      match m with
      | 0 =>
          rw [if_pos rfl]
          rfl
      | Nat.succ k =>
          rw [if_neg (by omega : ¬ (Nat.succ (Nat.succ k) = 1))]
          rfl

/-- An `object:moving` notification under the standard wiring only sets the
Transient-Operation flag. -/
theorem moving_echo (st : HState) (hw : st.subscribed = bindList 0) :
    exec 3 (Act.deliver EventName.objectMoving Payload.noData) st =
      { st with
          historyIsMoving := true,
          notifications := st.notifications
            ++ [(EventName.objectMoving, Payload.noData)] } := by
  show (handlersFor { st with notifications :=
      st.notifications ++ [(EventName.objectMoving, Payload.noData)] }
      EventName.objectMoving).foldl
    (fun st2 h => exec 2 (Act.run h.method Payload.noData) st2)
    { st with notifications :=
      st.notifications ++ [(EventName.objectMoving, Payload.noData)] } = _
  rw [handlersFor_wired _ _ (show ({ st with notifications :=
      st.notifications ++ [(EventName.objectMoving, Payload.noData)] } : HState).subscribed
      = bindList 0 from hw)]
  rfl

/-- An `object:modified` notification under the standard wiring clears the
Transient-Operation flag and runs one capture pass. -/
theorem modified_echo (st : HState) (hw : st.subscribed = bindList 0) :
    exec 3 (Act.deliver EventName.objectModified Payload.noData) st =
      historySaveAction { st with
        historyIsMoving := false,
        notifications := st.notifications
          ++ [(EventName.objectModified, Payload.noData)] } := by
  show (handlersFor { st with notifications :=
      st.notifications ++ [(EventName.objectModified, Payload.noData)] }
      EventName.objectModified).foldl
    (fun st2 h => exec 2 (Act.run h.method Payload.noData) st2)
    { st with notifications :=
      st.notifications ++ [(EventName.objectModified, Payload.noData)] } = _
  rw [handlersFor_wired _ _ (show ({ st with notifications :=
      st.notifications ++ [(EventName.objectModified, Payload.noData)] } : HState).subscribed
      = bindList 0 from hw)]
  rfl

/-- The compound branch's removal loop under the standard wiring: it erases
exactly the listed objects still present, its re-fired echoes are inert,
and every history-relevant field is preserved. -/
theorem removeFold_wired (n : Nat) : ∀ (objs : List Obj) (st : HState),
    st.historyProcessing = true → st.subscribed = bindList 0 →
    ((objs.foldl (fun st o =>
        if o ∈ st.doc then
          exec n (Act.deliver EventName.objectRemoved (Payload.target o))
            { st with doc := st.doc.erase o }
        else st) st).doc = objs.foldl (fun d o => d.erase o) st.doc ∧
     (objs.foldl (fun st o =>
        if o ∈ st.doc then
          exec n (Act.deliver EventName.objectRemoved (Payload.target o))
            { st with doc := st.doc.erase o }
        else st) st).historyUndo = st.historyUndo ∧
     (objs.foldl (fun st o =>
        if o ∈ st.doc then
          exec n (Act.deliver EventName.objectRemoved (Payload.target o))
            { st with doc := st.doc.erase o }
        else st) st).historyRedo = st.historyRedo ∧
     (objs.foldl (fun st o =>
        if o ∈ st.doc then
          exec n (Act.deliver EventName.objectRemoved (Payload.target o))
            { st with doc := st.doc.erase o }
        else st) st).historyCurrentState = st.historyCurrentState ∧
     (objs.foldl (fun st o =>
        if o ∈ st.doc then
          exec n (Act.deliver EventName.objectRemoved (Payload.target o))
            { st with doc := st.doc.erase o }
        else st) st).historyProcessing = true ∧
     (objs.foldl (fun st o =>
        if o ∈ st.doc then
          exec n (Act.deliver EventName.objectRemoved (Payload.target o))
            { st with doc := st.doc.erase o }
        else st) st).fired = st.fired ∧
     (objs.foldl (fun st o =>
        if o ∈ st.doc then
          exec n (Act.deliver EventName.objectRemoved (Payload.target o))
            { st with doc := st.doc.erase o }
        else st) st).subscribed = st.subscribed ∧
     (objs.foldl (fun st o =>
        if o ∈ st.doc then
          exec n (Act.deliver EventName.objectRemoved (Payload.target o))
            { st with doc := st.doc.erase o }
        else st) st).selectedObjects = st.selectedObjects ∧
     (objs.foldl (fun st o =>
        if o ∈ st.doc then
          exec n (Act.deliver EventName.objectRemoved (Payload.target o))
            { st with doc := st.doc.erase o }
        else st) st).historyIsMoving = st.historyIsMoving) := by
  intro objs
  induction objs with
  | nil => intro st h1 h2; exact ⟨rfl, rfl, rfl, rfl, h1, rfl, rfl, rfl, rfl⟩
  | cons o os iho =>
      intro st h1 h2
      simp only [List.foldl_cons]
      by_cases ho : o ∈ st.doc
      · rw [if_pos ho]
        rw [removed_echo n { st with doc := st.doc.erase o } (Payload.target o) h1 h2]
        by_cases hn : n = 0
        · rw [if_pos hn]
          exact iho { st with doc := st.doc.erase o } h1 h2
        · rw [if_neg hn]
          exact iho { st with
            doc := st.doc.erase o,
            notifications := st.notifications
              ++ [(EventName.objectRemoved, Payload.target o)] } h1 h2
      · rw [if_neg ho, List.erase_of_not_mem ho]
        exact iho st h1 h2

/-- The `discardActiveObject()` step of the compound branch: whatever fuel
and whether a selection was active, it preserves the document, the history
core, and the already-cleared pending set. -/
theorem discard_step_wired (n : Nat) (st : HState)
    (hw : st.subscribed = bindList 0) (hsel : st.selectedObjects = []) :
    (if st.activeObjects.isEmpty then st
     else exec n (Act.deliver EventName.selectionCleared Payload.noData)
            { st with activeObjects := [] }).doc = st.doc ∧
    (if st.activeObjects.isEmpty then st
     else exec n (Act.deliver EventName.selectionCleared Payload.noData)
            { st with activeObjects := [] }).selectedObjects = [] ∧
    (if st.activeObjects.isEmpty then st
     else exec n (Act.deliver EventName.selectionCleared Payload.noData)
            { st with activeObjects := [] }).historyIsMoving = st.historyIsMoving ∧
    (if st.activeObjects.isEmpty then st
     else exec n (Act.deliver EventName.selectionCleared Payload.noData)
            { st with activeObjects := [] }).historyUndo = st.historyUndo ∧
    (if st.activeObjects.isEmpty then st
     else exec n (Act.deliver EventName.selectionCleared Payload.noData)
            { st with activeObjects := [] }).historyRedo = st.historyRedo ∧
    (if st.activeObjects.isEmpty then st
     else exec n (Act.deliver EventName.selectionCleared Payload.noData)
            { st with activeObjects := [] }).historyCurrentState = st.historyCurrentState ∧
    (if st.activeObjects.isEmpty then st
     else exec n (Act.deliver EventName.selectionCleared Payload.noData)
            { st with activeObjects := [] }).historyProcessing = st.historyProcessing ∧
    (if st.activeObjects.isEmpty then st
     else exec n (Act.deliver EventName.selectionCleared Payload.noData)
            { st with activeObjects := [] }).fired = st.fired := by
  split
  · exact ⟨rfl, hsel, rfl, rfl, rfl, rfl, rfl, rfl⟩
  · rw [selCleared_echo n { st with activeObjects := [] } (by exact hw)]
    split
    · exact ⟨rfl, hsel, rfl, rfl, rfl, rfl, rfl, rfl⟩
    · split
      · exact ⟨rfl, hsel, rfl, rfl, rfl, rfl, rfl, rfl⟩
      · exact ⟨rfl, rfl, rfl, rfl, rfl, rfl, rfl, rfl⟩

/-- The compound removal under the standard wiring is one capture pass over
the document with the whole pending set erased, the pending set cleared,
and the history core untouched. -/
theorem compoundRemoval_wired (n : Nat) (s : HState)
    (hw : s.subscribed = bindList 0) :
    ∃ s5 : HState, compoundRemoval n s = historySaveAction s5 ∧
      s5.doc = s.selectedObjects.foldl (fun d o => d.erase o) s.doc ∧
      s5.selectedObjects = [] ∧
      s5.historyIsMoving = s.historyIsMoving ∧
      s5.historyProcessing = false ∧
      s5.historyUndo = s.historyUndo ∧
      s5.historyRedo = s.historyRedo ∧
      s5.historyCurrentState = s.historyCurrentState ∧
      s5.fired = s.fired := by
  obtain ⟨f1, f2, f3, f4, f5, f6, f7, f8, f9⟩ := removeFold_wired n
    (({ s with historyProcessing := true } : HState).selectedObjects)
    { { s with historyProcessing := true } with selectedObjects := [] }
    rfl (by exact hw)
  obtain ⟨d1, d2, d3, d4, d5, d6, d7, d8⟩ := discard_step_wired n
    ((({ s with historyProcessing := true } : HState).selectedObjects).foldl (fun st o =>
        if o ∈ st.doc then
          exec n (Act.deliver EventName.objectRemoved (Payload.target o))
            { st with doc := st.doc.erase o }
        else st) { { s with historyProcessing := true } with selectedObjects := [] })
    (f7.trans (by exact hw)) f8
  exact ⟨_, rfl, d1.trans f1, d2, d3.trans f9, rfl, d4.trans f2, d5.trans f3,
    d6.trans f4, d8.trans f6⟩

/-- C5: Compound delete batching.  Under the constructor's wiring: (1) a
removal notification arriving while batching is armed (multi-selection
flag set, removed object a member of the pending set) and while the engine
is quiescent removes the entire remaining pending set from the document as
one suppressed compound operation, clears the pending set, releases the
guard, and — the resulting token differing from the marker — pushes exactly
one new undo entry, sets the marker to it, clears the redo stack, and
emits exactly one `history:append`; (2) if batching is not armed the
removal passes through to the ordinary capture pass; (3) concretely,
removing a 2-object selection produces 2 `object:removed` notifications
but exactly 1 `history:append`, and empties the document. -/
theorem compound_delete_batching :
    (∀ (n : Nat) (s : HState) (t : Obj),
      Wired s → s.historyProcessing = false → s.historyIsMoving = false →
      s.isMultiSelection = true → s.selectedObjects.contains t = true →
      encode (s.selectedObjects.foldl (fun d o => d.erase o) s.doc)
          ≠ s.historyCurrentState →
      (exec (n+1) (Act.run Method.hObjectRemoved (Payload.target t)) s).doc =
          s.selectedObjects.foldl (fun d o => d.erase o) s.doc ∧
      (exec (n+1) (Act.run Method.hObjectRemoved (Payload.target t)) s).selectedObjects
          = [] ∧
      (exec (n+1) (Act.run Method.hObjectRemoved (Payload.target t)) s).historyProcessing
          = false ∧
      (exec (n+1) (Act.run Method.hObjectRemoved (Payload.target t)) s).historyUndo =
          encode (s.selectedObjects.foldl (fun d o => d.erase o) s.doc)
            :: s.historyUndo ∧
      (exec (n+1) (Act.run Method.hObjectRemoved (Payload.target t)) s).historyRedo
          = [] ∧
      (exec (n+1) (Act.run Method.hObjectRemoved (Payload.target t)) s).historyCurrentState
          = encode (s.selectedObjects.foldl (fun d o => d.erase o) s.doc) ∧
      (exec (n+1) (Act.run Method.hObjectRemoved (Payload.target t)) s).fired =
          s.fired ++ [HEvent.append
            (encode (s.selectedObjects.foldl (fun d o => d.erase o) s.doc)) false]) ∧
    (∀ (n : Nat) (s : HState) (t : Obj),
      (!s.historyProcessing && s.isMultiSelection
        && s.selectedObjects.contains t) = false →
      exec (n+1) (Act.run Method.hObjectRemoved (Payload.target t)) s =
        historySaveAction s) ∧
    ((removedNotes (canvasRemove 9 [1, 2] (selectObjects 5 [1, 2] (canvasAdd 5 2
        (canvasAdd 5 1 (mkCanvas [])))))).length =
      (removedNotes (selectObjects 5 [1, 2] (canvasAdd 5 2
        (canvasAdd 5 1 (mkCanvas []))))).length + 2 ∧
     (appendEvents (canvasRemove 9 [1, 2] (selectObjects 5 [1, 2] (canvasAdd 5 2
        (canvasAdd 5 1 (mkCanvas [])))))).length =
      (appendEvents (selectObjects 5 [1, 2] (canvasAdd 5 2
        (canvasAdd 5 1 (mkCanvas []))))).length + 1 ∧
     (canvasRemove 9 [1, 2] (selectObjects 5 [1, 2] (canvasAdd 5 2
        (canvasAdd 5 1 (mkCanvas []))))).doc = []) := by
  refine ⟨?_, ?_, by decide⟩
  · intro n s t hw hp hm hmulti hmem hne
    have hcond : (!s.historyProcessing && s.isMultiSelection
        && s.selectedObjects.contains t) = true := by
      rw [hp, hmulti, hmem]
      rfl
    rw [exec_objectRemoved_true n s t hcond]
    obtain ⟨s5, he, w1, w2, w3, w4, w5, w6, w7, w8⟩ :=
      compoundRemoval_wired n s (by exact hw)
    rw [he]
    have hmov5 : s5.historyIsMoving = false := w3.trans hm
    have hne5 : s5.historyCurrentState ≠ historyCurrent s5 := by
      intro heq
      apply hne
      calc encode (s.selectedObjects.foldl (fun d o => d.erase o) s.doc)
          = encode s5.doc := by rw [w1]
        _ = s5.historyCurrentState := heq.symm
        _ = s.historyCurrentState := w7
    rw [saveAction_push s5 w4 hmov5 hne5]
    refine ⟨?_, ?_, ?_, ?_, ?_, ?_, ?_⟩
    · show s5.doc = _
      exact w1
    · show s5.selectedObjects = _
      exact w2
    · show s5.historyProcessing = false
      exact w4
    · show historyCurrent s5 :: s5.historyUndo = _
      rw [w5]
      show encode s5.doc :: s.historyUndo = _
      rw [w1]
    · rfl
    · show historyCurrent s5 = _
      show encode s5.doc = _
      rw [w1]
    · show s5.fired ++ [HEvent.append (historyCurrent s5) false] = _
      rw [w8]
      show s.fired ++ [HEvent.append (encode s5.doc) false] = _
      rw [w1]
  · intro n s t hc
    exact exec_objectRemoved_false n s t hc

/-- Witness for C5 at a concrete input: two objects added and selected;
the handler's compound branch pushes exactly one new undo entry. -/
theorem compound_delete_batching_witness :
    (exec 9 (Act.run Method.hObjectRemoved (Payload.target 1))
      (selectObjects 5 [1, 2] (canvasAdd 5 2 (canvasAdd 5 1 (mkCanvas []))))).historyUndo =
      encode ((selectObjects 5 [1, 2] (canvasAdd 5 2 (canvasAdd 5 1
        (mkCanvas [])))).selectedObjects.foldl (fun d o => d.erase o)
        (selectObjects 5 [1, 2] (canvasAdd 5 2 (canvasAdd 5 1 (mkCanvas [])))).doc) ::
      (selectObjects 5 [1, 2] (canvasAdd 5 2 (canvasAdd 5 1 (mkCanvas [])))).historyUndo := by
  have h := (compound_delete_batching.1 8
    (selectObjects 5 [1, 2] (canvasAdd 5 2 (canvasAdd 5 1 (mkCanvas [])))) 1
    (by decide) (by decide) (by decide) (by decide) (by decide) (by decide))
  exact h.2.2.2.1

/-- C6: Transient suppression.  Under the constructor's wiring and with the
engine quiescent, any N ≥ 1 `object:moving` notifications (each moving the
document to some intermediate frame) produce no capture: the emitted
history events and the undo stack are unchanged.  The single
`object:modified` commit whose document `df` serializes differently from
the Current-State Marker then produces exactly one `history:append` and
exactly one new undo-stack entry — one, not N+1. -/
theorem transient_suppression (ds : List Doc) (df : Doc) (s : HState)
    (hw : Wired s) (hp : s.historyProcessing = false) (_hN : ds ≠ [])
    (hdf : encode df ≠ s.historyCurrentState) :
    ((dragMoves 3 ds s).fired = s.fired ∧
     (dragMoves 3 ds s).historyUndo = s.historyUndo) ∧
    ((dragSequence 3 ds df s).fired =
        s.fired ++ [HEvent.append (encode df) false] ∧
     (dragSequence 3 ds df s).historyUndo = encode df :: s.historyUndo) := by
  have hmid := foldl_preserves
    (fun st => st.fired = s.fired ∧ st.historyUndo = s.historyUndo ∧
      st.historyRedo = s.historyRedo ∧
      st.historyCurrentState = s.historyCurrentState ∧
      st.historyProcessing = false ∧ st.subscribed = bindList 0)
    (fun st d =>
      exec 3 (Act.deliver EventName.objectMoving Payload.noData) { st with doc := d })
    (fun st d hst => by
      obtain ⟨h1, h2, h3, h4, h5, h6⟩ := hst
      dsimp only
      rw [moving_echo { st with doc := d } (by exact h6)]
      exact ⟨h1, h2, h3, h4, h5, h6⟩)
    ds s ⟨rfl, rfl, rfl, rfl, hp, hw⟩
  obtain ⟨m1, m2, m3, m4, m5, m6⟩ := hmid
  refine ⟨⟨m1, m2⟩, ?_⟩
  have hstep := modified_echo { dragMoves 3 ds s with doc := df } (by exact m6)
  have hseq : dragSequence 3 ds df s =
      historySaveAction { { dragMoves 3 ds s with doc := df } with
        historyIsMoving := false,
        notifications := ({ dragMoves 3 ds s with doc := df } : HState).notifications
          ++ [(EventName.objectModified, Payload.noData)] } := hstep
  rw [hseq]
  have hY : ({ { dragMoves 3 ds s with doc := df } with
      historyIsMoving := false,
      notifications := ({ dragMoves 3 ds s with doc := df } : HState).notifications
        ++ [(EventName.objectModified, Payload.noData)] } : HState).historyCurrentState
      = s.historyCurrentState := m4
  have hne5 : ({ { dragMoves 3 ds s with doc := df } with
      historyIsMoving := false,
      notifications := ({ dragMoves 3 ds s with doc := df } : HState).notifications
        ++ [(EventName.objectModified, Payload.noData)] } : HState).historyCurrentState
      ≠ historyCurrent { { dragMoves 3 ds s with doc := df } with
        historyIsMoving := false,
        notifications := ({ dragMoves 3 ds s with doc := df } : HState).notifications
          ++ [(EventName.objectModified, Payload.noData)] } := by
    intro heq
    exact hdf (heq.symm.trans hY)
  rw [saveAction_push _ (by exact m5) rfl hne5]
  constructor
  · exact congrArg (fun l => l ++ [HEvent.append (encode df) false]) m1
  · exact congrArg (fun l => encode df :: l) m2

/-- Witness for C6 at a concrete input: one moving frame then a commit on a
fresh canvas pushes exactly one entry and changes nothing during the
move. -/
theorem transient_suppression_witness :
    (dragMoves 3 [[1]] (mkCanvas [])).fired = (mkCanvas []).fired ∧
    (dragSequence 3 [[1]] [1] (mkCanvas [])).historyUndo =
      encode [1] :: (mkCanvas []).historyUndo := by
  have h := transient_suppression [[1]] [1] (mkCanvas []) (by decide) (by decide)
    (by decide) (by decide)
  exact ⟨h.1.1, h.2.2⟩
